import Mathlib

/-!
Verification development for the RaphLoop iterative-repair engine.

The TypeScript sources are shallowly embedded: pure functions become Lean
functions, the stateful protocol loops become fuel-indexed recursions whose
fuel equals the remaining loop iterations, and the results of external
effects (the spawned verification process, each agent run) are passed in
as explicit parameters.  JavaScript numbers are modelled as rationals, and
strings as lists of characters so that every definition evaluates inside
the kernel.
-/

namespace RaphLoop

/-- Strings of the TypeScript source, modelled as character lists. -/
abbrev Text := List Char

/-- JavaScript String.prototype.toLowerCase. -/
def toLowerText (s : Text) : Text := s.map Char.toLower

/-- JavaScript String.prototype.includes: pat occurs contiguously in s. -/
def containsSeq : Text → Text → Bool
  | [], pat => pat.isEmpty
  | c :: t, pat => pat.isPrefixOf (c :: t) || containsSeq t pat

/-- JavaScript spreading an Array into a Set and back ([...new Set(xs)]):
removes duplicates keeping the first occurrence of each element. -/
def jsSetDedup (l : List Text) : List Text :=
  l.foldl (fun acc x => if x ∈ acc then acc else acc ++ [x]) []

/-- Error categories (src/core/types.ts, enum ErrorCategory). -/
inductive ErrorCategory where
  | SYNTAX | TYPE | DEPENDENCY | LOGIC | TEST | BUILD | LINT | RUNTIME | OTHER
deriving DecidableEq

/-- Agent specializations (src/core/specialist_agent.ts, enum AgentSpecialty). -/
inductive AgentSpecialty where
  | GENERAL | DATA_ANALYSIS | ARCHITECTURE | TESTING | PERFORMANCE | SECURITY
  | WEB_DEVELOPMENT | UI_REFACTORING
deriving DecidableEq

/-- Fix kinds (src/core/types.ts, enum FixType). -/
inductive FixType where
  | ADD_IMPORT | REMOVE_IMPORT | UPDATE_TYPE | FIX_SYNTAX | ADD_DEPENDENCY
  | MODIFY_LOGIC | UPDATE_TEST | ADD_FUNCTION | REMOVE_FUNCTION | REFACTOR
deriving DecidableEq

/-- The string value of each AgentSpecialty enum member. -/
def specialtyText : AgentSpecialty → Text
  | .GENERAL => "general".data
  | .DATA_ANALYSIS => "data_analysis".data
  | .ARCHITECTURE => "architecture".data
  | .TESTING => "testing".data
  | .PERFORMANCE => "performance".data
  | .SECURITY => "security".data
  | .WEB_DEVELOPMENT => "web_development".data
  | .UI_REFACTORING => "ui_refactoring".data

/-- The string value of each ErrorCategory enum member. -/
def categoryText : ErrorCategory → Text
  | .SYNTAX => "syntax".data
  | .TYPE => "type".data
  | .DEPENDENCY => "dependency".data
  | .LOGIC => "logic".data
  | .TEST => "test".data
  | .BUILD => "build".data
  | .LINT => "lint".data
  | .RUNTIME => "runtime".data
  | .OTHER => "other".data

/-- Individual code change (src/core/types.ts, interface CodeChange). -/
structure CodeChange where
  filePath : Text
  lineNumber : Option ℕ
  originalCode : Text
  newCode : Text
  description : Text
deriving DecidableEq

/-- Suggested fix (src/core/types.ts, interface FixSuggestion). -/
structure FixSuggestion where
  fixType : FixType
  description : Text
  files : List Text
  codeChanges : List CodeChange
  confidence : ℚ
deriving DecidableEq

/-- Result of one engine iteration (src/core/types.ts, interface IterationResult). -/
structure IterationResult where
  success : Bool
  iteration : ℕ
  changes : List Text
  error : Option Text
  modifiedFiles : List Text
deriving DecidableEq

/-- Agent execution context (src/core/specialist_agent.ts).  The optional
previousAttempts and metadata fields are never read by the embedded code
paths and are omitted. -/
structure AgentExecutionContext where
  request : Text
  codebaseContext : Text
  errorOutput : Option Text
deriving DecidableEq

/-- Agent execution result (src/core/specialist_agent.ts).  The metadata
field (a wall-clock timestamp) is omitted. -/
structure AgentExecutionResult where
  success : Bool
  agent : AgentSpecialty
  iterations : ℕ
  changes : List Text
  modifiedFiles : List Text
  recommendations : List Text
  error : Option Text
deriving DecidableEq

/-- Agent capability metadata (src/core/specialist_agent.ts, AgentCapability). -/
structure AgentCapability where
  specialty : AgentSpecialty
  supportedLanguages : List Text
  supportedErrorCategories : List ErrorCategory
  confidence : ℚ
  description : Text
  maxIterations : ℕ

/-- Capability declared by the WebDevelopmentSpecialistAgent constructor. -/
def webDevelopmentCapability : AgentCapability :=
  { specialty := .WEB_DEVELOPMENT
    supportedLanguages :=
      ["typescript".data, "javascript".data, "python".data, "java".data,
       "c#".data, "*".data]
    supportedErrorCategories := [.LOGIC, .RUNTIME, .TEST, .DEPENDENCY]
    confidence := 0.85
    description :=
      "Specializes in full-stack web development issues: sessions, auth, UI state, middleware chains".data
    maxIterations := 12 }

/-- The per-suggestion score used by SpecialistAgent.selectBestSuggestion:
confidence adjusted by the iteration-decay factor. -/
def suggestionScore (s : FixSuggestion) (iteration : ℕ) : ℚ :=
  s.confidence * (1 - ((iteration : ℚ) - 1) * 0.1)

/-- SpecialistAgent.selectBestSuggestion: sort by the decayed score in
descending order (JavaScript sort is stable) and return the first element;
equivalently, the first element attaining the maximal score. -/
def selectBestSuggestion (suggestions : List FixSuggestion) (iteration : ℕ) :
    Option FixSuggestion :=
  match suggestions with
  | [] => none
  | s :: rest =>
      some (rest.foldl
        (fun best c =>
          if suggestionScore best iteration < suggestionScore c iteration then c else best)
        s)

/-- SpecialistAgent.generateRecommendations. -/
def generateRecommendations (success : Bool) (specialty : AgentSpecialty) : List Text :=
  if !success then
    ["Failed to solve with ".data ++ specialtyText specialty ++ " agent".data,
     "Consider routing to different specialist agent".data,
     "Request may require manual intervention".data]
  else
    ["Solution applied successfully".data,
     "Review changes before committing".data,
     "Run verification tests to confirm".data]

/-- SpecialistAgent.buildResult (error path of the catch handler omitted:
the embedded applyFix behaviours are total). -/
def buildResult (success : Bool) (specialty : AgentSpecialty) (iterations : ℕ)
    (iterationHistory : List IterationResult) : AgentExecutionResult :=
  { success := success
    agent := specialty
    iterations := iterations
    changes := iterationHistory.flatMap (fun r => r.changes)
    modifiedFiles := jsSetDedup (iterationHistory.flatMap (fun r => r.modifiedFiles))
    recommendations := generateRecommendations success specialty
    error := none }

/-- One recorded suggestion selection of the execute loop:
iteration number, the selected suggestion, and whether applyFix returned true. -/
abbrev SelectionRecord := ℕ × FixSuggestion × Bool

/-- Outcome of the bounded loop inside SpecialistAgent.execute. -/
structure AgentLoopOutcome where
  succeeded : Bool
  iteration : ℕ
  history : List IterationResult
  trace : List SelectionRecord
deriving DecidableEq

/-- The for-loop of SpecialistAgent.execute.  fuel is the number of loop
iterations still allowed (maxIterations − i + 1); i is the loop variable.
applyFix returns the applied flag together with the IterationResult records
the subclass appends to iterationHistory during the call.  The trace records
each selection, which in the source is the sequence of applyFix calls. -/
def executeGo (applyFix : FixSuggestion → Bool × List IterationResult)
    (suggestions : List FixSuggestion) :
    ℕ → ℕ → List IterationResult → List SelectionRecord → AgentLoopOutcome
  | 0, i, hist, trace => ⟨false, i, hist, trace⟩
  | fuel + 1, i, hist, trace =>
    match selectBestSuggestion suggestions i with
    | none => ⟨false, i, hist, trace⟩
    | some s =>
      let ar := applyFix s
      let hist2 := hist ++ ar.2
      let trace2 := trace ++ [(i, s, ar.1)]
      if !ar.1 then executeGo applyFix suggestions fuel (i + 1) hist2 trace2
      else if (0.8 : ℚ) < s.confidence then ⟨true, i, hist2, trace2⟩
      else executeGo applyFix suggestions fuel (i + 1) hist2 trace2

/-- SpecialistAgent.execute, parameterized by the suggestions returned by
the analyzeContext of the subclass and by the applyFix behaviour of the subclass.
Returns the built AgentExecutionResult together with the selection trace. -/
def specialistExecute (specialty : AgentSpecialty)
    (applyFix : FixSuggestion → Bool × List IterationResult)
    (suggestions : List FixSuggestion) (maxIterations : ℕ) :
    AgentExecutionResult × List SelectionRecord :=
  if suggestions.isEmpty then (buildResult false specialty 0 [], [])
  else
    let o := executeGo applyFix suggestions maxIterations 1 [] []
    (buildResult o.succeeded specialty o.iteration o.history, o.trace)

/-- GeneralSpecialistAgent.analyzeContext: returns no suggestions. -/
def generalAnalyzeContext (_ctx : AgentExecutionContext) : List FixSuggestion := []

/-- GeneralSpecialistAgent.applyFix: always returns false. -/
def generalApplyFix (_fix : FixSuggestion) : Bool := false

/-- GeneralSpecialistAgent.execute: the base execute loop instantiated with
the analyzeContext and applyFix of the general agent (which records nothing). -/
def generalExecute (ctx : AgentExecutionContext) (maxIterations : ℕ) :
    AgentExecutionResult × List SelectionRecord :=
  specialistExecute .GENERAL (fun f => (generalApplyFix f, []))
    (generalAnalyzeContext ctx) maxIterations

/-- Verification script record (src/core/types.ts, interface VerificationScript). -/
structure VerificationScript where
  path : Text
  code : Text
  exitCode : Option ℕ
  output : Option Text
  errorOutput : Option Text
deriving DecidableEq

/-- What the external process spawned by child_process.execSync did:
either a normal exit (code 0, captured stdout), or a thrown error object
carrying an optional status (absent for a timeout), optional stdout/stderr
and a message string. -/
inductive ExecOutcome where
  | success (output : Text)
  | failure (status : Option ℕ) (stdout : Option Text) (stderr : Option Text)
      (message : Text)
deriving DecidableEq

/-- JavaScript a || b on an optional string: an absent or empty string is
falsy and falls through to b. -/
def jsOrText (a : Option Text) (b : Text) : Text :=
  match a with
  | some s => if s.isEmpty then b else s
  | none => b

/-- JavaScript a || b on an optional number: an absent or zero value is
falsy and falls through to b. -/
def jsOrNum (a : Option ℕ) (b : ℕ) : ℕ :=
  match a with
  | some n => if n = 0 then b else n
  | none => b

/-- VerificationManager.executeVerificationScript: runs the script via
execSync and records exit code and captured output on the script record.
Success sets exitCode 0; the catch branch sets exitCode to error.status || 1
(so a timeout, whose error has no status, records 1) and captures
error.stdout || empty and error.stderr || error.message || empty. -/
def executeVerificationScript (script : VerificationScript)
    (outcome : ExecOutcome) : VerificationScript :=
  match outcome with
  | .success output =>
      { script with exitCode := some 0, output := some output, errorOutput := some [] }
  | .failure status stdout stderr message =>
      { script with
        exitCode := some (jsOrNum status 1)
        output := some (jsOrText stdout [])
        errorOutput := some (jsOrText stderr (jsOrText (some message) [])) }

/-- VerificationManager.isVerificationPassed: exit code is exactly 0. -/
def isVerificationPassed (script : VerificationScript) : Bool :=
  script.exitCode == some 0

/-- VerificationManager.extractErrorInfo. -/
def extractErrorInfo (script : VerificationScript) : Text :=
  if isVerificationPassed script then []
  else jsOrText script.errorOutput (jsOrText script.output "Unknown error".data)

/-- Outcome of RaphLoopProtocol.executeLoopPhase: the final
currentIteration, succeeded flag and accumulated iterationHistory. -/
structure LoopPhaseOutcome where
  currentIteration : ℕ
  succeeded : Bool
  iterationHistory : List IterationResult
deriving DecidableEq

/-- The while-loop of RaphLoopProtocol.executeLoopPhase.  fuel equals
maxIterations − cur, the number of loop entries still permitted; runs gives
the external process outcome of the verification run at each iteration and
fix the IterationResult the iteration engine returns at each iteration. -/
def loopGo (maxIterations : ℕ) (script : VerificationScript)
    (runs : ℕ → ExecOutcome) (fix : ℕ → IterationResult) :
    ℕ → ℕ → List IterationResult → LoopPhaseOutcome
  | 0, cur, hist => ⟨cur, false, hist⟩
  | fuel + 1, cur, hist =>
    let cur2 := cur + 1
    let executed := executeVerificationScript script (runs cur2)
    if isVerificationPassed executed then ⟨cur2, true, hist⟩
    else if maxIterations ≤ cur2 then ⟨cur2, false, hist⟩
    else
      let ir := fix cur2
      let hist2 := hist ++ [ir]
      if ir.success then loopGo maxIterations script runs fix fuel cur2 hist2
      else ⟨cur2, false, hist2⟩

/-- RaphLoopProtocol.executeLoopPhase, starting from currentIteration 0 and
an empty iterationHistory. -/
def executeLoopPhase (maxIterations : ℕ) (script : VerificationScript)
    (runs : ℕ → ExecOutcome) (fix : ℕ → IterationResult) : LoopPhaseOutcome :=
  loopGo maxIterations script runs fix maxIterations 0 []

/-- Outcome tag of an attempted solution (src/core/types.ts,
ExecutionMemory.attemptedSolutions[].result). -/
inductive SolutionOutcome where
  | success | failure | partialFix
deriving DecidableEq

/-- One attempted solution recorded in execution memory. -/
structure AttemptedSolution where
  agentSpecialty : Text
  approach : Text
  result : SolutionOutcome
  iteration : ℕ
  errorMessage : Option Text
deriving DecidableEq

/-- Execution memory entry (src/core/types.ts, interface ExecutionMemory).
appliedChanges entries are (filePath, changeDescription, timestamp). -/
structure ExecutionMemory where
  executionId : Text
  originalRequest : Text
  attemptedSolutions : List AttemptedSolution
  appliedChanges : List (Text × Text × ℕ)
  succeeded : Bool
  totalIterations : ℕ
  timestamp : ℕ
deriving DecidableEq

/-- Splitting on whitespace runs; a leading run or consecutive whitespace
produces empty pieces, which the length filter of tokenize discards just as
it does for the JavaScript regex split. -/
def splitWsGo : Text → Text → List Text
  | [], acc => [acc.reverse]
  | c :: rest, acc =>
      if c.isWhitespace then acc.reverse :: splitWsGo rest []
      else splitWsGo rest (c :: acc)

/-- JavaScript text.split on whitespace. -/
def splitWs (s : Text) : List Text := splitWsGo s []

/-- EnhancedIterationEngine.tokenize: lowercase, split on whitespace, keep
tokens longer than two characters. -/
def tokenize (text : Text) : List Text :=
  (splitWs (toLowerText text)).filter (fun token => token.length > 2)

/-- EnhancedIterationEngine.calculateSimilarity: Jaccard similarity of the
two token sets (JavaScript Sets, i.e. the deduplicated token lists). -/
def calculateSimilarity (tokens1 tokens2 : List Text) : ℚ :=
  let set1 := tokens1.dedup
  let set2 := tokens2.dedup
  let inter := (set1.filter (fun token => decide (token ∈ set2))).length
  let union := set1.length + set2.length - inter
  if union > 0 then (inter : ℚ) / (union : ℚ) else 0

/-- Stable insertion of x into a list already sorted by key in descending
order, keeping earlier elements first on equal keys (JavaScript sort with
comparator b.key − a.key is stable). -/
def insertDescBy (key : α → ℕ) (x : α) : List α → List α
  | [] => [x]
  | y :: ys => if key y ≤ key x then x :: y :: ys else y :: insertDescBy key x ys

/-- Stable sort by key in descending order. -/
def sortDescBy (key : α → ℕ) : List α → List α
  | [] => []
  | x :: xs => insertDescBy key x (sortDescBy key xs)

/-- EnhancedIterationEngine.getSimilarSuccesses: over the stored entries
(the values of the executionMemory map, in insertion order), keep the
successful ones whose original request has Jaccard similarity above 0.5
with the current request, optionally filtered to entries that attempted the
given agentSpecialty, sorted by totalIterations descending. -/
def getSimilarSuccesses (store : List ExecutionMemory) (currentRequest : Text)
    (agentSpecialty : Option Text) : List ExecutionMemory :=
  let currentTokens := tokenize currentRequest
  let results := store.filter (fun memory =>
    memory.succeeded &&
    decide ((0.5 : ℚ) < calculateSimilarity currentTokens (tokenize memory.originalRequest)) &&
    (match agentSpecialty with
     | none => true
     | some sp => memory.attemptedSolutions.any (fun s => s.agentSpecialty == sp)))
  sortDescBy (fun m => m.totalIterations) results

/-- EnhancedIterationEngine.pruneMemory: when more than keepCount entries
are stored, keep only the keepCount most recent by timestamp. -/
def pruneMemory (store : List ExecutionMemory) (keepCount : ℕ) :
    List ExecutionMemory :=
  if store.length ≤ keepCount then store
  else (sortDescBy (fun m => m.timestamp) store).take keepCount

/-- Problem classification (src/core/multi_agent_orchestrator.ts). -/
structure ProblemClassification where
  primaryCategory : ErrorCategory
  secondaryCategories : List ErrorCategory
  suggestedAgents : List AgentSpecialty
  confidence : ℚ
  description : Text
deriving DecidableEq

/-- MultiAgentOrchestrator.detectPrimaryCategory: first matching keyword
family in the concatenated, lowercased error output and request. -/
def detectPrimaryCategory (errorOutput request : Text) : ErrorCategory :=
  let combined := toLowerText (errorOutput ++ request)
  if containsSeq combined "data".data || containsSeq combined "query".data ||
     containsSeq combined "sql".data then .LOGIC
  else if containsSeq combined "test".data || containsSeq combined "expect".data then .TEST
  else if containsSeq combined "type".data || containsSeq combined "typescript".data then .TYPE
  else if containsSeq combined "syntax".data || containsSeq combined "token".data then .SYNTAX
  else if containsSeq combined "import".data || containsSeq combined "module".data then .DEPENDENCY
  else if containsSeq combined "build".data || containsSeq combined "compile".data then .BUILD
  else if containsSeq combined "lint".data || containsSeq combined "eslint".data then .LINT
  else if containsSeq combined "performance".data || containsSeq combined "slow".data then .OTHER
  else .LOGIC

/-- MultiAgentOrchestrator.detectSecondaryCategories. -/
def detectSecondaryCategories (errorOutput : Text) : List ErrorCategory :=
  let lower := toLowerText errorOutput
  (if containsSeq lower "type".data then [ErrorCategory.TYPE] else []) ++
  (if containsSeq lower "null".data || containsSeq lower "undefined".data then
    [ErrorCategory.RUNTIME] else []) ++
  (if containsSeq lower "null".data then [ErrorCategory.RUNTIME] else [])

/-- The web-development keyword list of selectSuitableAgents. -/
def webDevKeywords : List Text :=
  ["session".data, "login".data, "auth".data, "cookie".data, "bearer".data,
   "token".data, "nextauth".data, "express".data, "nestjs".data,
   "fastapi".data, "django".data, "middleware".data, "redirect".data,
   "csrf".data, "cors".data, "credential".data, "hydration".data,
   "useeffect".data, "usestate".data, "context".data, "redux".data,
   "zustand".data]

/-- The UI-refactoring keyword list of selectSuitableAgents. -/
def uiKeywords : List Text :=
  ["component".data, "render".data, "blank".data, "display".data,
   "hook".data, "state".data, "react".data, "vue".data, "jsx".data,
   "tsx".data, "useeffect".data, "usestate".data]

/-- The suggestion-building body of MultiAgentOrchestrator.selectSuitableAgents,
before the default fallback: each keyword family appends its agent. -/
def suggestedSpecificAgents (primaryCategory : ErrorCategory)
    (ctx : AgentExecutionContext) : List AgentSpecialty :=
  let request := toLowerText ctx.request
  let codebase := toLowerText ctx.codebaseContext
  let hasWebDevKeyword := webDevKeywords.any
    (fun kw => containsSeq request kw || containsSeq codebase kw)
  let l1 := if hasWebDevKeyword then [AgentSpecialty.WEB_DEVELOPMENT] else []
  let hasUIKeyword := uiKeywords.any
    (fun kw => containsSeq request kw || containsSeq codebase kw)
  let l2 := if hasUIKeyword && !(l1.contains AgentSpecialty.WEB_DEVELOPMENT) then
      l1 ++ [AgentSpecialty.UI_REFACTORING] else l1
  let l3 := if containsSeq request "data".data || containsSeq request "query".data ||
      containsSeq request "sql".data || containsSeq request "parse".data ||
      containsSeq request "transform".data || containsSeq request "analysis".data then
      l2 ++ [AgentSpecialty.DATA_ANALYSIS] else l2
  let l4 := if containsSeq request "test".data || primaryCategory == ErrorCategory.TEST then
      l3 ++ [AgentSpecialty.TESTING] else l3
  let l5 := if containsSeq request "architecture".data || containsSeq request "structure".data ||
      containsSeq request "refactor".data || containsSeq request "design".data then
      l4 ++ [AgentSpecialty.ARCHITECTURE] else l4
  let l6 := if containsSeq request "performance".data || containsSeq request "optimize".data ||
      containsSeq request "fast".data || containsSeq request "slow".data then
      l5 ++ [AgentSpecialty.PERFORMANCE] else l5
  let l7 := if containsSeq request "security".data || containsSeq request "vulnerable".data ||
      containsSeq request "encrypt".data then
      l6 ++ [AgentSpecialty.SECURITY] else l6
  l7

/-- MultiAgentOrchestrator.selectSuitableAgents: the keyword-driven
suggestions, defaulting to the general agent when none matched.  The
secondaryCategories parameter is accepted but never read, as in the source. -/
def selectSuitableAgents (primaryCategory : ErrorCategory)
    (_secondaryCategories : List ErrorCategory)
    (ctx : AgentExecutionContext) : List AgentSpecialty :=
  let suggested := suggestedSpecificAgents primaryCategory ctx
  if suggested.isEmpty then [AgentSpecialty.GENERAL] else suggested

/-- MultiAgentOrchestrator.calculateClassificationConfidence. -/
def calculateClassificationConfidence (errorOutput : Text)
    (suggestedAgents : List AgentSpecialty) : ℚ :=
  let errorLength := errorOutput.length
  let confidence := min 0.9 ((errorLength : ℚ) / 1000)
  let confidence2 := confidence * (1 - ((suggestedAgents.length : ℚ) - 1) * 0.1)
  max 0.3 (min 0.95 confidence2)

/-- MultiAgentOrchestrator.classifyProblem. -/
def classifyProblem (ctx : AgentExecutionContext) : ProblemClassification :=
  let errorOutput := ctx.errorOutput.getD []
  let primaryCategory := detectPrimaryCategory errorOutput ctx.request
  let secondaryCategories := detectSecondaryCategories errorOutput
  let suggestedAgents := selectSuitableAgents primaryCategory secondaryCategories ctx
  let confidence := calculateClassificationConfidence errorOutput suggestedAgents
  { primaryCategory := primaryCategory
    secondaryCategories := secondaryCategories
    suggestedAgents := suggestedAgents
    confidence := confidence
    description := categoryText primaryCategory ++ " issue, likely solvable by ".data ++
      List.intercalate ", ".data (suggestedAgents.map specialtyText) ++
      " agent(s)".data }

/-- Multi-agent execution result (src/core/multi_agent_orchestrator.ts).
The timing metadata is omitted; the classification carried in metadata is
kept.  executionPath is a log string and is omitted. -/
structure MultiAgentResult where
  succeeded : Bool
  primaryAgent : AgentSpecialty
  agentsUsed : List AgentSpecialty
  totalIterations : ℕ
  changes : List Text
  modifiedFiles : List Text
  classification : ProblemClassification
deriving DecidableEq

/-- The agent-execution for-loop of MultiAgentOrchestrator.execute.
agents gives, for each specialty, the AgentExecutionResult of that
execute of the registered agent on the current context, or none when no agent is
registered for the specialty (which the loop skips).  Accumulators:
the last result, the agentsUsed list and totalIterations. -/
def orchLoop (agents : AgentSpecialty → Option AgentExecutionResult) :
    List AgentSpecialty → Option AgentExecutionResult → List AgentSpecialty → ℕ →
    Option AgentExecutionResult × List AgentSpecialty × ℕ
  | [], last, used, total => (last, used, total)
  | a :: rest, last, used, total =>
    match agents a with
    | none => orchLoop agents rest last used total
    | some r =>
      if r.success then (some r, used ++ [a], total + r.iterations)
      else orchLoop agents rest (some r) (used ++ [a]) (total + r.iterations)

/-- MultiAgentOrchestrator.execute: classify once, run the candidate agents
in order until one succeeds, then build the aggregate result from the last
result, the agents used and the accumulated iteration count. -/
def orchestratorExecute (agents : AgentSpecialty → Option AgentExecutionResult)
    (ctx : AgentExecutionContext) : MultiAgentResult :=
  let classification := classifyProblem ctx
  let out := orchLoop agents classification.suggestedAgents none [] 0
  { succeeded := (out.1.map (fun r => r.success)).getD false
    primaryAgent := out.2.1.headD AgentSpecialty.GENERAL
    agentsUsed := out.2.1
    totalIterations := out.2.2
    changes := (out.1.map (fun r => r.changes)).getD []
    modifiedFiles := (out.1.map (fun r => r.modifiedFiles)).getD []
    classification := classification }

/-- The candidates the orchestrator actually executes: the available agents
in list order up to and including the first whose result is successful. -/
def attemptedAgents (agents : AgentSpecialty → Option AgentExecutionResult) :
    List AgentSpecialty → List AgentSpecialty
  | [] => []
  | a :: rest =>
    match agents a with
    | none => attemptedAgents agents rest
    | some r => a :: (if r.success then [] else attemptedAgents agents rest)

/-- The result of the last agent the orchestrator executed, if any. -/
def lastAttemptedResult (agents : AgentSpecialty → Option AgentExecutionResult) :
    List AgentSpecialty → Option AgentExecutionResult
  | [] => none
  | a :: rest =>
    match agents a with
    | none => lastAttemptedResult agents rest
    | some r =>
      if r.success then some r
      else match lastAttemptedResult agents rest with
        | none => some r
        | some r2 => some r2

/-- The iteration count an attempted specialty contributed. -/
def iterationsOf (agents : AgentSpecialty → Option AgentExecutionResult)
    (a : AgentSpecialty) : ℕ :=
  ((agents a).map (fun r => r.iterations)).getD 0

/-! Concrete instances used by the closed witness and counterexample
theorems below. -/

/-- A suggestion with confidence one half. -/
def cexSuggestionA : FixSuggestion :=
  { fixType := .MODIFY_LOGIC, description := "first".data, files := [],
    codeChanges := [], confidence := 1/2 }

/-- A suggestion with confidence two fifths. -/
def cexSuggestionB : FixSuggestion :=
  { fixType := .UPDATE_TEST, description := "second".data, files := [],
    codeChanges := [], confidence := 2/5 }

/-- A suggestion with confidence nine tenths, above the success threshold. -/
def cexSuggestionHigh : FixSuggestion :=
  { fixType := .ADD_FUNCTION, description := "high".data, files := [],
    codeChanges := [], confidence := 9/10 }

/-- A context whose request mentions data and tests, classifying to the
data-analysis and testing candidate strategies. -/
def orchCtx : AgentExecutionContext :=
  { request := "data test".data, codebaseContext := [], errorOutput := none }

/-- A failed data-analysis run that reported one change. -/
def orchResultA : AgentExecutionResult :=
  { success := false, agent := .DATA_ANALYSIS, iterations := 2,
    changes := ["a".data], modifiedFiles := ["fa.ts".data],
    recommendations := [], error := none }

/-- A successful testing run that reported a different change. -/
def orchResultB : AgentExecutionResult :=
  { success := true, agent := .TESTING, iterations := 3,
    changes := ["b".data], modifiedFiles := ["fb.ts".data],
    recommendations := [], error := none }

/-- A registry with a data-analysis agent and a testing agent only. -/
def orchAgents : AgentSpecialty → Option AgentExecutionResult
  | .DATA_ANALYSIS => some orchResultA
  | .TESTING => some orchResultB
  | _ => none

/-- A blank verification script record. -/
def probeScript : VerificationScript :=
  { path := "verify.js".data, code := [], exitCode := none, output := none,
    errorOutput := none }

/-- An external check that always exits with code 1. -/
def failingRun : ℕ → ExecOutcome :=
  fun _ => .failure (some 1) none none "tests failed".data

/-- An iteration engine whose fix always applies. -/
def trivialFix : ℕ → IterationResult :=
  fun i => { success := true, iteration := i, changes := ["fix".data],
             error := none, modifiedFiles := ["f.ts".data] }

/-- A stored successful entry whose request has three long tokens. -/
def memIdentical : ExecutionMemory :=
  { executionId := "e1".data, originalRequest := "fix the tests".data,
    attemptedSolutions := [], appliedChanges := [], succeeded := true,
    totalIterations := 4, timestamp := 10 }

/-- A stored successful entry whose request has no token longer than two
characters, so its token set is empty. -/
def memShortTokens : ExecutionMemory :=
  { executionId := "e2".data, originalRequest := "a b".data,
    attemptedSolutions := [], appliedChanges := [], succeeded := true,
    totalIterations := 1, timestamp := 0 }

/-- An older memory entry. -/
def memOlder : ExecutionMemory :=
  { executionId := "old".data, originalRequest := "old request".data,
    attemptedSolutions := [], appliedChanges := [], succeeded := false,
    totalIterations := 1, timestamp := 1 }

/-- A newer memory entry. -/
def memNewer : ExecutionMemory :=
  { executionId := "new".data, originalRequest := "new request".data,
    attemptedSolutions := [], appliedChanges := [], succeeded := true,
    totalIterations := 2, timestamp := 5 }

/-! Helper lemmas. -/

theorem insertDescBy_perm (key : α → ℕ) (x : α) :
    ∀ l : List α, (insertDescBy key x l).Perm (x :: l) := by
  intro l
  induction l with
  | nil => exact List.Perm.refl _
  | cons y ys ih =>
    unfold insertDescBy
    split
    · exact List.Perm.refl _
    · exact (ih.cons y).trans (List.Perm.swap x y ys)

theorem sortDescBy_perm (key : α → ℕ) :
    ∀ l : List α, (sortDescBy key l).Perm l := by
  intro l
  induction l with
  | nil => exact List.Perm.refl _
  | cons x xs ih =>
    exact (insertDescBy_perm key x (sortDescBy key xs)).trans (ih.cons x)

theorem insertDescBy_pairwise (key : α → ℕ) (x : α) :
    ∀ l : List α, l.Pairwise (fun a b => key b ≤ key a) →
      (insertDescBy key x l).Pairwise (fun a b => key b ≤ key a) := by
  intro l
  induction l with
  | nil => intro _; simp [insertDescBy]
  | cons y ys ih =>
    intro hp
    rw [List.pairwise_cons] at hp
    unfold insertDescBy
    split
    · rename_i hyx
      rw [List.pairwise_cons]
      refine ⟨?_, List.pairwise_cons.mpr hp⟩
      intro b hb
      rcases List.mem_cons.mp hb with hb | hb
      · subst hb; exact hyx
      · exact (hp.1 b hb).trans hyx
    · rename_i hyx
      rw [List.pairwise_cons]
      refine ⟨?_, ih hp.2⟩
      intro b hb
      have := (insertDescBy_perm key x ys).mem_iff.mp hb
      rcases List.mem_cons.mp this with hb2 | hb2
      · subst hb2; omega
      · exact hp.1 b hb2

theorem sortDescBy_pairwise (key : α → ℕ) :
    ∀ l : List α, (sortDescBy key l).Pairwise (fun a b => key b ≤ key a) := by
  intro l
  induction l with
  | nil => simp [sortDescBy]
  | cons x xs ih => exact insertDescBy_pairwise key x (sortDescBy key xs) ih

theorem selectFold_mem (it : ℕ) :
    ∀ (rest : List FixSuggestion) (s : FixSuggestion),
      rest.foldl (fun best c =>
        if suggestionScore best it < suggestionScore c it then c else best) s ∈
          s :: rest := by
  intro rest
  induction rest with
  | nil => intro s; simp
  | cons c cs ih =>
    intro s
    simp only [List.foldl_cons]
    by_cases hif : suggestionScore s it < suggestionScore c it
    · rw [if_pos hif]
      rcases List.mem_cons.mp (ih c) with h | h
      · simp [h]
      · simp [h]
    · rw [if_neg hif]
      rcases List.mem_cons.mp (ih s) with h | h
      · simp [h]
      · simp [h]

theorem selectFold_le (it : ℕ) :
    ∀ (rest : List FixSuggestion) (s : FixSuggestion),
      ∀ t ∈ s :: rest,
        suggestionScore t it ≤
          suggestionScore
            (rest.foldl (fun best c =>
              if suggestionScore best it < suggestionScore c it then c else best) s) it := by
  intro rest
  induction rest with
  | nil =>
    intro s t ht
    rcases List.mem_cons.mp ht with h | h
    · subst h; exact le_refl _
    · simp at h
  | cons c cs ih =>
    intro s t ht
    simp only [List.foldl_cons]
    have hstep : suggestionScore s it ≤
        suggestionScore (if suggestionScore s it < suggestionScore c it then c else s) it ∧
        suggestionScore c it ≤
        suggestionScore (if suggestionScore s it < suggestionScore c it then c else s) it := by
      split
      · rename_i h; exact ⟨le_of_lt h, le_refl _⟩
      · rename_i h; exact ⟨le_refl _, le_of_not_lt h⟩
    rcases List.mem_cons.mp ht with h | h
    · subst h
      exact hstep.1.trans (ih _ _ (List.mem_cons_self _ _))
    · rcases List.mem_cons.mp h with h2 | h2
      · subst h2
        exact hstep.2.trans (ih _ _ (List.mem_cons_self _ _))
      · exact ih _ t (List.mem_cons_of_mem _ h2)

/-- The selected suggestion is an element of the list and attains the
maximal decayed score. -/
theorem selectBestSuggestion_spec {suggestions : List FixSuggestion} {it : ℕ}
    {s : FixSuggestion} (h : selectBestSuggestion suggestions it = some s) :
    s ∈ suggestions ∧
      ∀ t ∈ suggestions, suggestionScore t it ≤ suggestionScore s it := by
  match suggestions with
  | [] => simp [selectBestSuggestion] at h
  | a :: rest =>
    simp only [selectBestSuggestion, Option.some.injEq] at h
    subst h
    exact ⟨selectFold_mem it rest a, fun t ht => selectFold_le it rest a t ht⟩

/-- Jaccard similarity of a nonempty token list with itself is one. -/
theorem calculateSimilarity_self (t : List Text) (h : t ≠ []) :
    calculateSimilarity t t = 1 := by
  have hfilter : (t.dedup.filter (fun token => decide (token ∈ t.dedup))) = t.dedup :=
    List.filter_eq_self.mpr (fun a ha => decide_eq_true ha)
  simp only [calculateSimilarity, hfilter]
  have hlen : t.dedup.length + t.dedup.length - t.dedup.length = t.dedup.length := by omega
  rw [hlen]
  have hne : t.dedup ≠ [] := by
    intro hc
    exact h ((List.dedup_eq_nil t).mp hc)
  have hpos : 0 < t.dedup.length := List.length_pos.mpr hne
  rw [if_pos hpos]
  exact div_self (by exact_mod_cast Nat.pos_iff_ne_zero.mp hpos)

/-- Characterization of the bounded execute loop: it appends at most fuel
selection records, each selected by selectBestSuggestion at its iteration
number, and it succeeds exactly when some record was applied with
confidence above the 0.8 threshold. -/
theorem executeGo_props (af : FixSuggestion → Bool × List IterationResult)
    (sugg : List FixSuggestion) :
    ∀ (fuel i : ℕ) (hist : List IterationResult) (trace : List SelectionRecord),
      ∃ newTrace : List SelectionRecord,
        (executeGo af sugg fuel i hist trace).trace = trace ++ newTrace ∧
        newTrace.length ≤ fuel ∧
        (∀ r ∈ newTrace, selectBestSuggestion sugg r.1 = some r.2.1 ∧ i ≤ r.1) ∧
        ((executeGo af sugg fuel i hist trace).succeeded = true ↔
          ∃ r ∈ newTrace, r.2.2 = true ∧ (0.8 : ℚ) < r.2.1.confidence) := by
  intro fuel
  induction fuel with
  | zero =>
    intro i hist trace
    exact ⟨[], by simp [executeGo], by simp, by simp, by simp [executeGo]⟩
  | succ f ih =>
    intro i hist trace
    cases hsel : selectBestSuggestion sugg i with
    | none =>
      refine ⟨[], ?_, by simp, by simp, ?_⟩
      · simp [executeGo, hsel]
      · simp [executeGo, hsel]
    | some s =>
      by_cases happ : (af s).1
      · by_cases hconf : (0.8 : ℚ) < s.confidence
        · refine ⟨[(i, s, (af s).1)], ?_, by simp, ?_, ?_⟩
          · simp [executeGo, hsel, happ, hconf]
          · intro r hr
            rcases List.mem_singleton.mp hr with rfl
            exact ⟨hsel, le_refl i⟩
          · simp [executeGo, hsel, happ, hconf]
        · obtain ⟨nt, hT, hLen, hMem, hIff⟩ :=
            ih (i + 1) (hist ++ (af s).2) (trace ++ [(i, s, (af s).1)])
          refine ⟨(i, s, (af s).1) :: nt, ?_, by simpa using Nat.succ_le_succ hLen, ?_, ?_⟩
          · rw [show (executeGo af sugg (f + 1) i hist trace) =
                executeGo af sugg f (i + 1) (hist ++ (af s).2)
                  (trace ++ [(i, s, (af s).1)]) from by
                simp [executeGo, hsel, happ, hconf]]
            rw [hT, List.append_assoc]
            rfl
          · intro r hr
            rcases List.mem_cons.mp hr with rfl | hr2
            · exact ⟨hsel, le_refl i⟩
            · exact ⟨(hMem r hr2).1, le_of_lt (Nat.lt_of_lt_of_le (Nat.lt_succ_self i)
                (hMem r hr2).2)⟩
          · rw [show (executeGo af sugg (f + 1) i hist trace) =
                executeGo af sugg f (i + 1) (hist ++ (af s).2)
                  (trace ++ [(i, s, (af s).1)]) from by
                simp [executeGo, hsel, happ, hconf]]
            rw [hIff]
            constructor
            · rintro ⟨r, hr, hprop⟩
              exact ⟨r, List.mem_cons_of_mem _ hr, hprop⟩
            · rintro ⟨r, hr, hprop⟩
              rcases List.mem_cons.mp hr with rfl | hr2
              · exact absurd hprop.2 hconf
              · exact ⟨r, hr2, hprop⟩
      · obtain ⟨nt, hT, hLen, hMem, hIff⟩ :=
          ih (i + 1) (hist ++ (af s).2) (trace ++ [(i, s, (af s).1)])
        refine ⟨(i, s, (af s).1) :: nt, ?_, by simpa using Nat.succ_le_succ hLen, ?_, ?_⟩
        · rw [show (executeGo af sugg (f + 1) i hist trace) =
              executeGo af sugg f (i + 1) (hist ++ (af s).2)
                (trace ++ [(i, s, (af s).1)]) from by
              simp [executeGo, hsel, happ]]
          rw [hT, List.append_assoc]
          rfl
        · intro r hr
          rcases List.mem_cons.mp hr with rfl | hr2
          · exact ⟨hsel, le_refl i⟩
          · exact ⟨(hMem r hr2).1, le_of_lt (Nat.lt_of_lt_of_le (Nat.lt_succ_self i)
              (hMem r hr2).2)⟩
        · rw [show (executeGo af sugg (f + 1) i hist trace) =
              executeGo af sugg f (i + 1) (hist ++ (af s).2)
                (trace ++ [(i, s, (af s).1)]) from by
              simp [executeGo, hsel, happ]]
          rw [hIff]
          constructor
          · rintro ⟨r, hr, hprop⟩
            exact ⟨r, List.mem_cons_of_mem _ hr, hprop⟩
          · rintro ⟨r, hr, hprop⟩
            rcases List.mem_cons.mp hr with rfl | hr2
            · exact absurd hprop.1 happ
            · exact ⟨r, hr2, hprop⟩

/-- Characterization of the protocol loop when verification always fails
and every fix applies: fuel iterations run, the loop ends unsuccessfully at
iteration cur + fuel, and a record is appended for every iteration except
the last (the loop re-checks the bound before generating a fix). -/
theorem loopGo_allFail (maxIterations : ℕ) (script : VerificationScript)
    (runs : ℕ → ExecOutcome) (fix : ℕ → IterationResult)
    (hfail : ∀ i, isVerificationPassed (executeVerificationScript script (runs i)) = false)
    (hfix : ∀ i, (fix i).success = true) :
    ∀ (fuel cur : ℕ) (hist : List IterationResult),
      maxIterations = cur + fuel → 1 ≤ fuel →
      loopGo maxIterations script runs fix fuel cur hist =
        ⟨cur + fuel, false, hist ++ (List.range' (cur + 1) (fuel - 1)).map fix⟩ := by
  intro fuel
  induction fuel with
  | zero => intro cur hist _ h; omega
  | succ f ih =>
    intro cur hist hmax _
    simp only [loopGo]
    rw [if_neg (by rw [hfail (cur + 1)]; simp)]
    rcases Nat.eq_zero_or_pos f with rfl | hf
    · rw [if_pos (by omega)]
      simp
    · rw [if_neg (by omega)]
      simp only [hfix (cur + 1), if_true]
      rw [ih (cur + 1) (hist ++ [fix (cur + 1)]) (by omega) hf]
      have hr : List.range' (cur + 1) (f + 1 - 1) = (cur + 1) :: List.range' (cur + 2) (f - 1) := by
        have h2 : f + 1 - 1 = (f - 1) + 1 := by omega
        rw [h2, List.range'_succ]
      rw [hr]
      simp only [LoopPhaseOutcome.mk.injEq, List.map_cons, List.append_assoc,
        List.singleton_append]
      exact ⟨by omega, trivial, trivial⟩

/-- The orchestrator agent loop in terms of the attempted-agent list:
the last executed result, the accumulated agentsUsed and the accumulated
iteration total. -/
theorem orchLoop_spec (agents : AgentSpecialty → Option AgentExecutionResult) :
    ∀ (l : List AgentSpecialty) (last : Option AgentExecutionResult)
      (used : List AgentSpecialty) (total : ℕ),
      orchLoop agents l last used total =
        ((match lastAttemptedResult agents l with
          | none => last
          | some r => some r),
         used ++ attemptedAgents agents l,
         total + ((attemptedAgents agents l).map (iterationsOf agents)).sum) := by
  intro l
  induction l with
  | nil => intro last used total; simp [orchLoop, lastAttemptedResult, attemptedAgents]
  | cons a rest ih =>
    intro last used total
    cases hag : agents a with
    | none =>
      simp only [orchLoop, hag, lastAttemptedResult, attemptedAgents]
      exact ih last used total
    | some r =>
      by_cases hs : r.success
      · simp only [orchLoop, hag, hs, if_true, lastAttemptedResult, attemptedAgents,
          if_pos hs]
        simp [iterationsOf, hag]
      · simp only [orchLoop, hag, hs, if_false, lastAttemptedResult, attemptedAgents,
          if_neg hs]
        rw [ih (some r) (used ++ [a]) (total + r.iterations)]
        simp [iterationsOf, hag, List.append_assoc]
        constructor
        · cases lastAttemptedResult agents rest <;> simp
        · omega

/-- Every attempted agent before the last one executed and failed. -/
theorem attemptedAgents_front_fail (agents : AgentSpecialty → Option AgentExecutionResult) :
    ∀ (l : List AgentSpecialty),
      ∀ a ∈ (attemptedAgents agents l).dropLast,
        ∃ r, agents a = some r ∧ r.success = false := by
  intro l
  induction l with
  | nil => intro a ha; simp [attemptedAgents] at ha
  | cons b rest ih =>
    intro a ha
    cases hag : agents b with
    | none =>
      simp only [attemptedAgents, hag] at ha
      exact ih a ha
    | some r =>
      by_cases hs : r.success
      · simp only [attemptedAgents, hag, if_pos hs] at ha
        simp at ha
      · simp only [attemptedAgents, hag, if_neg hs] at ha
        cases hrest : attemptedAgents agents rest with
        | nil => rw [hrest] at ha; simp at ha
        | cons c cs =>
          rw [hrest] at ha
          rw [List.dropLast_cons₂] at ha
          rcases List.mem_cons.mp ha with rfl | ha2
          · exact ⟨r, hag, by simpa using hs⟩
          · rw [← hrest] at ha2
            exact ih a ha2

/-! Claim theorems. -/

/-- Claim C2: for every check execution, a timeout or non-zero exit of the
external verification process is recorded as a failed verification outcome
with the captured output as diagnostic text (the embedding is a total
function, so no error propagates to the caller), and the outcome counts as
passed exactly when the recorded exit code is 0. -/
theorem verification_outcome_contract :
    ∀ (script : VerificationScript) (outcome : ExecOutcome),
      (isVerificationPassed (executeVerificationScript script outcome) = true ↔
        (executeVerificationScript script outcome).exitCode = some 0) ∧
      (∀ status stdout stderr message,
        outcome = .failure status stdout stderr message →
          isVerificationPassed (executeVerificationScript script outcome) = false ∧
          (executeVerificationScript script outcome).output = some (jsOrText stdout []) ∧
          (executeVerificationScript script outcome).errorOutput =
            some (jsOrText stderr (jsOrText (some message) []))) ∧
      (∀ output, outcome = .success output →
        isVerificationPassed (executeVerificationScript script outcome) = true) := by
  intro script outcome
  refine ⟨?_, ?_, ?_⟩
  · unfold isVerificationPassed
    exact ⟨fun h => by exact_mod_cast beq_iff_eq.mp h,
           fun h => by rw [h]; rfl⟩
  · intro status stdout stderr message hout
    subst hout
    refine ⟨?_, rfl, rfl⟩
    unfold isVerificationPassed executeVerificationScript
    have hne : jsOrNum status 1 ≠ 0 := by
      cases status with
      | none => simp [jsOrNum]
      | some n =>
        simp only [jsOrNum]
        split
        · simp
        · rename_i hn; exact hn
    simpa using hne
  · intro output hout
    subst hout
    rfl

/-- Claim C2 witness: a timeout (no status) and a plain exit-1 failure are
both reported as failed; a normal exit is reported as passed. -/
theorem verification_outcome_contract_witness :
    isVerificationPassed (executeVerificationScript probeScript
      (.failure none none none "timed out".data)) = false ∧
    isVerificationPassed (executeVerificationScript probeScript
      (.failure (some 1) none none "exit 1".data)) = false ∧
    isVerificationPassed (executeVerificationScript probeScript
      (.success "ok".data)) = true :=
  ⟨((verification_outcome_contract probeScript _).2.1 none none none _ rfl).1,
   ((verification_outcome_contract probeScript _).2.1 (some 1) none none _ rfl).1,
   (verification_outcome_contract probeScript _).2.2 "ok".data rfl⟩

/-- Claim C4: classification always returns a non-empty candidate list;
when no specific strategy matched the keyword evidence the list is exactly
the single general strategy. -/
theorem classification_nonempty :
    ∀ (primaryCategory : ErrorCategory) (secondaryCategories : List ErrorCategory)
      (ctx : AgentExecutionContext),
      selectSuitableAgents primaryCategory secondaryCategories ctx ≠ [] ∧
      (suggestedSpecificAgents primaryCategory ctx = [] →
        selectSuitableAgents primaryCategory secondaryCategories ctx =
          [AgentSpecialty.GENERAL]) ∧
      (classifyProblem ctx).suggestedAgents ≠ [] := by
  intro p sec ctx
  have hmain : ∀ (p2 : ErrorCategory) (sec2 : List ErrorCategory),
      selectSuitableAgents p2 sec2 ctx ≠ [] := by
    intro p2 sec2
    unfold selectSuitableAgents
    by_cases h : (suggestedSpecificAgents p2 ctx).isEmpty
    · rw [if_pos h]; simp
    · rw [if_neg h]
      intro hc
      rw [hc] at h
      exact h rfl
  refine ⟨hmain p sec, ?_, ?_⟩
  · intro hempty
    unfold selectSuitableAgents
    rw [if_pos (by rw [hempty]; rfl)]
  · rw [show (classifyProblem ctx).suggestedAgents =
        selectSuitableAgents (detectPrimaryCategory (ctx.errorOutput.getD []) ctx.request)
          (detectSecondaryCategories (ctx.errorOutput.getD [])) ctx from rfl]
    exact hmain _ _

/-- Claim C4 witness: a context with no keyword evidence degrades to
exactly the general strategy. -/
theorem classification_nonempty_witness :
    selectSuitableAgents .LOGIC []
      { request := [], codebaseContext := [], errorOutput := none } =
      [AgentSpecialty.GENERAL] :=
  (classification_nonempty .LOGIC [] _).2.1 (by decide)

/-- Claim C7: pruning keeps exactly min(keepCount, totalEntries) entries,
and every retained entry is at least as recent as every evicted entry. -/
theorem prune_memory_spec :
    ∀ (store : List ExecutionMemory) (keepCount : ℕ),
      (pruneMemory store keepCount).length = min keepCount store.length ∧
      (∀ a ∈ pruneMemory store keepCount, ∀ b ∈ store,
        b ∉ pruneMemory store keepCount → b.timestamp ≤ a.timestamp) := by
  intro store keepCount
  unfold pruneMemory
  by_cases hle : store.length ≤ keepCount
  · rw [if_pos hle]
    exact ⟨(Nat.min_eq_right hle).symm, fun a _ b hb hnb => absurd hb hnb⟩
  · rw [if_neg hle]
    have hperm := sortDescBy_perm (fun m => m.timestamp) store
    constructor
    · rw [List.length_take, hperm.length_eq]
    · intro a ha b hb hnb
      have hbs : b ∈ sortDescBy (fun m => m.timestamp) store := hperm.mem_iff.mpr hb
      have hpw := sortDescBy_pairwise (fun m => m.timestamp) store
      rw [← List.take_append_drop keepCount (sortDescBy (fun m => m.timestamp) store)]
        at hbs hpw
      rcases List.mem_append.mp hbs with h | h
      · exact absurd h hnb
      · exact (List.pairwise_append.mp hpw).2.2 a ha b h

/-- Claim C7 witness: pruning a two-entry store to one entry keeps the
newer entry, and the evicted entry has a timestamp that is no larger. -/
theorem prune_memory_witness :
    (pruneMemory [memOlder, memNewer] 1).length = 1 ∧
    memOlder.timestamp ≤ memNewer.timestamp := by
  have h := prune_memory_spec [memOlder, memNewer] 1
  refine ⟨by rw [h.1]; decide, ?_⟩
  exact h.2 memNewer (by decide) memOlder (by decide) (by decide)

/-- Claim C8: the classification confidence is the clamp to the interval
from 0.3 to 0.95 of a non-decreasing function of the diagnostic length
multiplied by the candidate-count factor; it always lies in that closed
interval and, for a fixed candidate list, is non-decreasing in the
diagnostic length. -/
theorem classification_confidence_spec :
    ∀ (errorOutput : Text) (suggestedAgents : List AgentSpecialty),
      (0.3 : ℚ) ≤ calculateClassificationConfidence errorOutput suggestedAgents ∧
      calculateClassificationConfidence errorOutput suggestedAgents ≤ 0.95 ∧
      ∀ longerOutput : Text, errorOutput.length ≤ longerOutput.length →
        calculateClassificationConfidence errorOutput suggestedAgents ≤
          calculateClassificationConfidence longerOutput suggestedAgents := by
  intro e agents
  refine ⟨le_max_left _ _, max_le (by norm_num) (min_le_left _ _), ?_⟩
  intro e2 hlen
  simp only [calculateClassificationConfidence]
  rcases le_or_lt 0 (1 - ((agents.length : ℚ) - 1) * 0.1) with hF | hF
  · apply max_le_max (le_refl _)
    apply min_le_min (le_refl _)
    apply mul_le_mul_of_nonneg_right ?_ hF
    apply min_le_min (le_refl _)
    exact (div_le_div_iff_of_pos_right (by norm_num)).mpr (by exact_mod_cast hlen)
  · have hm : ∀ len : ℕ,
        min (0.9 : ℚ) ((len : ℚ) / 1000) * (1 - ((agents.length : ℚ) - 1) * 0.1) ≤ 0 := by
      intro len
      have h1 : (0 : ℚ) ≤ min (0.9 : ℚ) ((len : ℚ) / 1000) :=
        le_min (by norm_num) (by positivity)
      nlinarith [h1, hF]
    have heq : ∀ len : ℕ,
        max (0.3 : ℚ) (min 0.95
          (min (0.9 : ℚ) ((len : ℚ) / 1000) * (1 - ((agents.length : ℚ) - 1) * 0.1))) =
          0.3 := by
      intro len
      rw [min_eq_right ((hm len).trans (by norm_num)),
        max_eq_left ((hm len).trans (by norm_num))]
    rw [heq e.length, heq e2.length]

/-- Claim C8 witness: concrete bounds and monotonicity instance. -/
theorem classification_confidence_witness :
    (0.3 : ℚ) ≤ calculateClassificationConfidence "ab".data [.GENERAL] ∧
    calculateClassificationConfidence "ab".data [.GENERAL] ≤ 0.95 ∧
    calculateClassificationConfidence "ab".data [.GENERAL] ≤
      calculateClassificationConfidence "abc".data [.GENERAL] := by
  have h := classification_confidence_spec "ab".data [.GENERAL]
  exact ⟨h.1, h.2.1, h.2.2 "abc".data (by decide)⟩

/-- Claim C10: execute of the general fallback strategy returns success
false with zero iterations and empty change lists, because its analysis
yields no suggestions; its applyFix always returns false, so it can never
apply a fix. -/
theorem general_agent_inert :
    ∀ (ctx : AgentExecutionContext) (maxIterations : ℕ),
      (generalExecute ctx maxIterations).1.success = false ∧
      (generalExecute ctx maxIterations).1.iterations = 0 ∧
      (generalExecute ctx maxIterations).1.changes = [] ∧
      (generalExecute ctx maxIterations).1.modifiedFiles = [] ∧
      (∀ fix, generalApplyFix fix = false) := by
  intro ctx n
  exact ⟨rfl, rfl, rfl, rfl, fun _ => rfl⟩

theorem selectBest_AB_one :
    selectBestSuggestion [cexSuggestionA, cexSuggestionB] 1 = some cexSuggestionA := by
  simp only [selectBestSuggestion, List.foldl_cons, List.foldl_nil]
  rw [if_neg (by norm_num [suggestionScore, cexSuggestionA, cexSuggestionB])]

theorem selectBest_AB_two :
    selectBestSuggestion [cexSuggestionA, cexSuggestionB] 2 = some cexSuggestionA := by
  simp only [selectBestSuggestion, List.foldl_cons, List.foldl_nil]
  rw [if_neg (by norm_num [suggestionScore, cexSuggestionA, cexSuggestionB])]

theorem selectBest_AB_twelve :
    selectBestSuggestion [cexSuggestionA, cexSuggestionB] 12 = some cexSuggestionB := by
  simp only [selectBestSuggestion, List.foldl_cons, List.foldl_nil]
  rw [if_pos (by norm_num [suggestionScore, cexSuggestionA, cexSuggestionB])]

/-- Claim C9: for a non-empty suggestion list and iteration between 1 and
10 the common decay factor is positive, so the selection returns a
suggestion of maximal confidence; from iteration 12 on the factor is
negative and the selection returns a suggestion of minimal confidence,
reachable because the web-development specialist declares an iteration
budget of 12 (and the multi-strategy tier goes to 15). -/
theorem decay_ranking_spec :
    (∀ (suggestions : List FixSuggestion) (it : ℕ) (s : FixSuggestion),
       1 ≤ it → it ≤ 10 → selectBestSuggestion suggestions it = some s →
       ∀ t ∈ suggestions, t.confidence ≤ s.confidence) ∧
    (∀ (suggestions : List FixSuggestion) (it : ℕ) (s : FixSuggestion),
       12 ≤ it → selectBestSuggestion suggestions it = some s →
       ∀ t ∈ suggestions, s.confidence ≤ t.confidence) ∧
    webDevelopmentCapability.maxIterations = 12 := by
  refine ⟨?_, ?_, rfl⟩
  · intro sugg it s _ h10 hsel t ht
    have hscore := (selectBestSuggestion_spec hsel).2 t ht
    have hF : (0 : ℚ) < 1 - ((it : ℚ) - 1) * 0.1 := by
      have hc : (it : ℚ) ≤ 10 := by exact_mod_cast h10
      nlinarith
    unfold suggestionScore at hscore
    exact le_of_mul_le_mul_right hscore hF
  · intro sugg it s h12 hsel t ht
    have hscore := (selectBestSuggestion_spec hsel).2 t ht
    have hF : 1 - ((it : ℚ) - 1) * 0.1 < 0 := by
      have hc : (12 : ℚ) ≤ (it : ℚ) := by exact_mod_cast h12
      nlinarith
    unfold suggestionScore at hscore
    nlinarith

/-- Claim C9 witness: with confidences one half and two fifths, iteration 1
selects the maximal-confidence suggestion, iteration 12 the minimal one. -/
theorem decay_ranking_witness :
    selectBestSuggestion [cexSuggestionA, cexSuggestionB] 1 = some cexSuggestionA ∧
    selectBestSuggestion [cexSuggestionA, cexSuggestionB] 12 = some cexSuggestionB ∧
    cexSuggestionB.confidence ≤ cexSuggestionA.confidence :=
  ⟨selectBest_AB_one, selectBest_AB_twelve,
   decay_ranking_spec.1 [cexSuggestionA, cexSuggestionB] 1 cexSuggestionA
     (by norm_num) (by norm_num) selectBest_AB_one cexSuggestionB (by simp)⟩

/-- Claim C5 (amended): the execute loop runs at most maxIterations
iterations; each iteration selects a highest-scoring suggestion under the
decayed score (the source keeps no used-set, so the same suggestion may be
selected repeatedly); the loop declares local success exactly when a
selected suggestion with confidence strictly above 0.8 is applied without
error. -/
theorem specialist_loop_spec :
    ∀ (specialty : AgentSpecialty)
      (applyFix : FixSuggestion → Bool × List IterationResult)
      (suggestions : List FixSuggestion) (maxIterations : ℕ),
      (specialistExecute specialty applyFix suggestions maxIterations).2.length ≤
        maxIterations ∧
      (∀ r ∈ (specialistExecute specialty applyFix suggestions maxIterations).2,
        r.2.1 ∈ suggestions ∧
        ∀ t ∈ suggestions, suggestionScore t r.1 ≤ suggestionScore r.2.1 r.1) ∧
      ((specialistExecute specialty applyFix suggestions maxIterations).1.success = true ↔
        ∃ r ∈ (specialistExecute specialty applyFix suggestions maxIterations).2,
          r.2.2 = true ∧ (0.8 : ℚ) < r.2.1.confidence) := by
  intro sp af sugg maxI
  by_cases hemp : sugg.isEmpty
  · have hrw : specialistExecute sp af sugg maxI = (buildResult false sp 0 [], []) := by
      unfold specialistExecute
      rw [if_pos hemp]
    rw [hrw]
    refine ⟨Nat.zero_le _, by simp, ?_⟩
    constructor
    · intro h; exact absurd h (by simp [buildResult])
    · rintro ⟨r, hr, -⟩; simp at hr
  · have hrw : specialistExecute sp af sugg maxI =
        (buildResult (executeGo af sugg maxI 1 [] []).succeeded sp
          (executeGo af sugg maxI 1 [] []).iteration
          (executeGo af sugg maxI 1 [] []).history,
         (executeGo af sugg maxI 1 [] []).trace) := by
      unfold specialistExecute
      rw [if_neg hemp]
    rw [hrw]
    obtain ⟨nt, hT, hLen, hMem, hIff⟩ := executeGo_props af sugg maxI 1 [] []
    rw [List.nil_append] at hT
    refine ⟨?_, ?_, ?_⟩
    · show (executeGo af sugg maxI 1 [] []).trace.length ≤ maxI
      rw [hT]; exact hLen
    · intro r hr
      rw [show (buildResult (executeGo af sugg maxI 1 [] []).succeeded sp
          (executeGo af sugg maxI 1 [] []).iteration
          (executeGo af sugg maxI 1 [] []).history,
         (executeGo af sugg maxI 1 [] []).trace).2 =
           (executeGo af sugg maxI 1 [] []).trace from rfl, hT] at hr
      have hsel := (hMem r hr).1
      exact ⟨(selectBestSuggestion_spec hsel).1, (selectBestSuggestion_spec hsel).2⟩
    · show (executeGo af sugg maxI 1 [] []).succeeded = true ↔ _
      rw [hIff, hT]

/-- Claim C5 witness: a single high-confidence suggestion that applies
cleanly makes the loop declare success. -/
theorem specialist_loop_witness :
    (specialistExecute .GENERAL (fun _ => (true, [])) [cexSuggestionHigh] 3).1.success =
      true := by
  have hconf : (0.8 : ℚ) < cexSuggestionHigh.confidence := by
    norm_num [cexSuggestionHigh]
  have htrace : (specialistExecute .GENERAL (fun _ => (true, [])) [cexSuggestionHigh] 3).2 =
      [(1, cexSuggestionHigh, true)] := by
    show (executeGo (fun _ => (true, [])) [cexSuggestionHigh] 3 1 [] []).trace = _
    simp only [executeGo, selectBestSuggestion, List.foldl_nil, Bool.not_true,
      Bool.false_eq_true, if_false, if_pos hconf, List.nil_append]
  have h := (specialist_loop_spec .GENERAL (fun _ => (true, [])) [cexSuggestionHigh] 3).2.2
  apply h.mpr
  exact ⟨(1, cexSuggestionHigh, true), by rw [htrace]; simp, rfl,
    by norm_num [cexSuggestionHigh]⟩

/-- Claim C5 counterexample: the loop keeps no used-set, so at iterations 1
and 2 it selects the same highest-confidence suggestion although a second,
unused suggestion exists, contradicting the highest-scoring-unused reading
of the claim. -/
theorem specialist_loop_counterexample :
    ((specialistExecute .GENERAL (fun _ => (true, []))
        [cexSuggestionA, cexSuggestionB] 2).2.map (fun r => r.2.1)) =
      [cexSuggestionA, cexSuggestionA] ∧
    cexSuggestionA ≠ cexSuggestionB := by
  constructor
  · show ((executeGo (fun _ => (true, [])) [cexSuggestionA, cexSuggestionB] 2 1 [] []).trace).map
      (fun r => r.2.1) = _
    have hconfA : ¬((0.8 : ℚ) < cexSuggestionA.confidence) := by
      norm_num [cexSuggestionA]
    simp only [executeGo, Nat.reduceAdd, selectBest_AB_one, selectBest_AB_two,
      Bool.not_true, Bool.false_eq_true, if_false, if_neg hconfA, List.nil_append,
      List.append_nil]
    simp
  · intro h
    have hc : cexSuggestionA.confidence = cexSuggestionB.confidence := by rw [h]
    norm_num [cexSuggestionA, cexSuggestionB] at hc

/-- Claim C6 (amended): a stored successful entry whose original request is
character-identical to the query is returned, provided the request
tokenizes to at least one token (some word longer than two characters) so
that the Jaccard similarity of the identical token sets is 1 rather than 0. -/
theorem memory_identical_request_found :
    ∀ (store : List ExecutionMemory) (memory : ExecutionMemory) (requestText : Text),
      memory ∈ store → memory.succeeded = true →
      memory.originalRequest = requestText →
      tokenize requestText ≠ [] →
      memory ∈ getSimilarSuccesses store requestText none := by
  intro store m req hmem hsucc horig htok
  simp only [getSimilarSuccesses]
  refine ((sortDescBy_perm (fun m2 : ExecutionMemory => m2.totalIterations) _).mem_iff).mpr ?_
  apply List.mem_filter.mpr
  refine ⟨hmem, ?_⟩
  simp only [hsucc, horig, Bool.true_and, Bool.and_true]
  apply decide_eq_true
  rw [calculateSimilarity_self _ htok]
  norm_num

/-- Claim C6 witness: an entry with the three-token request is returned
when queried with the identical request text. -/
theorem memory_identical_request_found_witness :
    memIdentical ∈ getSimilarSuccesses [memIdentical] "fix the tests".data none :=
  memory_identical_request_found [memIdentical] memIdentical "fix the tests".data
    (by decide) rfl rfl (by decide)

/-- Claim C6 counterexample: the claim as stated fails for a stored
successful entry whose request has only short tokens: the token set is
empty, the Jaccard similarity is 0 rather than 1.0, and the entry is not
returned for the character-identical query. -/
theorem memory_identical_request_counterexample :
    memShortTokens.succeeded = true ∧
    memShortTokens.originalRequest = "a b".data ∧
    getSimilarSuccesses [memShortTokens] "a b".data none = [] ∧
    memShortTokens ∉ getSimilarSuccesses [memShortTokens] "a b".data none := by
  have hres : getSimilarSuccesses [memShortTokens] "a b".data none = [] := by
    have h : decide ((0.5 : ℚ) < calculateSimilarity (tokenize "a b".data)
        (tokenize memShortTokens.originalRequest)) = false := by
      apply decide_eq_false
      rw [show calculateSimilarity (tokenize "a b".data)
        (tokenize memShortTokens.originalRequest) = 0 from rfl]
      norm_num
    simp only [getSimilarSuccesses, List.filter, h, Bool.and_false, Bool.false_and,
      Bool.and_true, Bool.true_and]
    rfl
  exact ⟨rfl, rfl, hres, by rw [hres]; simp⟩

/-- Claim C1 (amended): when the verification check fails on every run and
every generated fix applies, the loop terminates with its iteration counter
equal to maxIterations and succeeded false, but with exactly
maxIterations − 1 IterationRecords: the loop re-checks the bound after the
failed verification of the final iteration and breaks before generating a
fix, so no record is appended for the last iteration. -/
theorem loop_exhaustion_spec :
    ∀ (maxIterations : ℕ) (script : VerificationScript) (runs : ℕ → ExecOutcome)
      (fix : ℕ → IterationResult),
      (∀ i, isVerificationPassed (executeVerificationScript script (runs i)) = false) →
      (∀ i, (fix i).success = true) →
      1 ≤ maxIterations →
      (executeLoopPhase maxIterations script runs fix).currentIteration = maxIterations ∧
      (executeLoopPhase maxIterations script runs fix).succeeded = false ∧
      (executeLoopPhase maxIterations script runs fix).iterationHistory.length =
        maxIterations - 1 := by
  intro maxI script runs fix hfail hfix hmax
  have h := loopGo_allFail maxI script runs fix hfail hfix maxI 0 [] (by omega) hmax
  unfold executeLoopPhase
  rw [h]
  refine ⟨by simp, rfl, ?_⟩
  simp [List.length_range']

/-- Claim C1 witness: three iterations of an always-failing check with
always-applying fixes end at iteration 3, unsuccessful, with 2 records. -/
theorem loop_exhaustion_witness :
    (executeLoopPhase 3 probeScript failingRun trivialFix).currentIteration = 3 ∧
    (executeLoopPhase 3 probeScript failingRun trivialFix).succeeded = false ∧
    (executeLoopPhase 3 probeScript failingRun trivialFix).iterationHistory.length = 2 :=
  loop_exhaustion_spec 3 probeScript failingRun trivialFix (fun _ => rfl) (fun _ => rfl)
    (by omega)

/-- Claim C1 counterexample: with maxIterations 2 and an always-failing
check the run does end at iteration 2 with succeeded false, but only 1
IterationRecord is appended, not maxIterations = 2 as the claim states. -/
theorem loop_exhaustion_counterexample :
    (executeLoopPhase 2 probeScript failingRun trivialFix).currentIteration = 2 ∧
    (executeLoopPhase 2 probeScript failingRun trivialFix).succeeded = false ∧
    (executeLoopPhase 2 probeScript failingRun trivialFix).iterationHistory.length = 1 ∧
    (executeLoopPhase 2 probeScript failingRun trivialFix).iterationHistory.length ≠ 2 := by
  decide

/-- Claim C3 (amended): the orchestrator classifies once at entry, tries
the candidate strategies in order, skipping unregistered ones, stopping at
the first success, with every earlier attempted strategy having failed; it
accumulates iteration counts across all attempted strategies, but the
reported changes come from the result of the last attempted strategy only (they
are not accumulated across strategies). -/
theorem orchestrator_accumulation :
    ∀ (agents : AgentSpecialty → Option AgentExecutionResult)
      (ctx : AgentExecutionContext),
      (orchestratorExecute agents ctx).classification = classifyProblem ctx ∧
      (orchestratorExecute agents ctx).agentsUsed =
        attemptedAgents agents (classifyProblem ctx).suggestedAgents ∧
      (orchestratorExecute agents ctx).totalIterations =
        ((attemptedAgents agents (classifyProblem ctx).suggestedAgents).map
          (iterationsOf agents)).sum ∧
      (∀ a ∈ (attemptedAgents agents (classifyProblem ctx).suggestedAgents).dropLast,
        ∃ r, agents a = some r ∧ r.success = false) ∧
      (orchestratorExecute agents ctx).succeeded =
        ((lastAttemptedResult agents (classifyProblem ctx).suggestedAgents).map
          (fun r => r.success)).getD false ∧
      (orchestratorExecute agents ctx).changes =
        ((lastAttemptedResult agents (classifyProblem ctx).suggestedAgents).map
          (fun r => r.changes)).getD [] := by
  intro agents ctx
  have hloop := orchLoop_spec agents (classifyProblem ctx).suggestedAgents none [] 0
  simp only [orchestratorExecute, hloop]
  refine ⟨by simp, by simp, by simp, attemptedAgents_front_fail agents _, ?_, ?_⟩
  · cases hL : lastAttemptedResult agents (classifyProblem ctx).suggestedAgents <;>
      simp [hL]
  · cases hL : lastAttemptedResult agents (classifyProblem ctx).suggestedAgents <;>
      simp [hL]

/-- Claim C3 witness: for a context classifying to the data-analysis and
testing strategies, with the first failing and the second succeeding, both
are attempted in order, iteration counts accumulate to 5, and the first
attempted strategy indeed executed and failed. -/
theorem orchestrator_accumulation_witness :
    (orchestratorExecute orchAgents orchCtx).agentsUsed = [.DATA_ANALYSIS, .TESTING] ∧
    (orchestratorExecute orchAgents orchCtx).totalIterations = 5 ∧
    (∃ r, orchAgents .DATA_ANALYSIS = some r ∧ r.success = false) := by
  have h := orchestrator_accumulation orchAgents orchCtx
  refine ⟨?_, ?_, ?_⟩
  · rw [h.2.1]; decide
  · rw [h.2.2.1]; decide
  · exact h.2.2.2.1 .DATA_ANALYSIS (by decide)

/-- Claim C3 counterexample: the aggregated change lists are not
accumulated across attempted strategies: the failed first strategy reported
change a, the succeeding second strategy change b, yet the aggregate result
carries only the list of the last strategy. -/
theorem orchestrator_accumulation_counterexample :
    orchResultA.changes = ["a".data] ∧
    orchResultB.changes = ["b".data] ∧
    (orchestratorExecute orchAgents orchCtx).agentsUsed = [.DATA_ANALYSIS, .TESTING] ∧
    (orchestratorExecute orchAgents orchCtx).changes = ["b".data] ∧
    (orchestratorExecute orchAgents orchCtx).changes ≠ ["a".data, "b".data] ∧
    (orchestratorExecute orchAgents orchCtx).modifiedFiles = ["fb.ts".data] := by
  decide

end RaphLoop

